import Mathlib

/-
  Verification of the core state/view engine of the fat terminal file viewer.

  The C sources are shallowly embedded as Lean definitions:
  - StringList (src/string_list.c) becomes List String, or List (List Nat)
    for content panes, where a line is its sequence of bytes before the NUL.
  - state.c and controller.c become pure state-transition functions on an
    AppState record; file-system and libmagic results are supplied through a
    LoadEnv record of oracles, mirroring the return-code interfaces the C
    code consumes.
  - The search scan (state_perform_search) is embedded with an explicit
    strstr model and a fuel-bounded loop; the fuel is one more than the
    remaining haystack length, which the C loop never exceeds because every
    iteration advances the scan pointer by at least one byte.

  UI drawing, ncurses windows, themes, plugin dlopen machinery and the
  logger are outside the model: the claims under verification concern the
  state engine only, and none of those components feed back into it beyond
  the oracle results modelled in LoadEnv.
-/

namespace Fat

/-- Result codes of the application, from include/core/error.h. -/
inductive FatResult where
  | success
  | errorGeneric
  | errorMemory
  | errorFileNotFound
  | errorFileRead
  | errorFileWrite
  | errorInvalidArgument
  | errorPluginLoad
  | errorThemeLoad
  | errorArchive
  | errorUnsupported
  deriving DecidableEq, Repr

/-- View modes, from include/core/state.h (VIEW_MODE_NORMAL is the text view). -/
inductive ViewMode where
  | normal
  | archive
  | binaryHex
  deriving DecidableEq, Repr

/-- Startup view-mode override, from include/core/state.h. -/
inductive ForceViewMode where
  | fvNone
  | fvText
  | fvHex
  deriving DecidableEq, Repr

/-- Input modes, from include/core/state.h. -/
inductive AppMode where
  | normal
  | searchInput
  | commandInput
  deriving DecidableEq, Repr

/-- A single search hit: line index and byte offset inside the line
(struct SearchMatch in include/core/state.h). -/
structure SearchMatch where
  line_idx : Nat
  char_idx : Nat
  deriving DecidableEq, Repr

/-- The dynamic match array (struct SearchMatchList). The C struct keeps
count separately from the matches pointer, and state_destroy_view resets the
pointer but not the count, so count is kept as an explicit field here. The
capacity field only drives realloc growth and is not modelled. -/
structure SearchMatchList where
  «matches» : List SearchMatch
  count : Nat
  current_match_idx : Nat
  deriving DecidableEq, Repr

/-- A loaded archive plugin as seen by the core (include/plugins/plugin_api.h):
its name, its can_handle predicate, and list_contents, which fills a line
store and returns a result code. -/
structure ArchivePlugin where
  plugin_name : String
  can_handle : String → Bool
  list_contents : String → List (List Nat) × FatResult

/-- First registered plugin whose can_handle accepts the path, from
pm_get_handler in src/plugins/plugin_manager.c. -/
def pm_get_handler (plugins : List ArchivePlugin) (filepath : String) : Option ArchivePlugin :=
  plugins.find? (fun pl => pl.can_handle filepath)

/-- User configuration consumed by the classifier (struct AppConfig in
include/core/state.h): the always-text and always-binary MIME lists. -/
structure AppConfig where
  text_mimes : List String
  binary_mimes : List String
  deriving DecidableEq, Repr

/-- The test strncmp(m, p, strlen(p)) == 0 of the C code: the string p is
a leading part of m, modelled on the character lists of the two strings. -/
def str_starts_with (p m : String) : Bool :=
  p.data.isPrefixOf m.data

/-- The MIME heuristic of state_init (src/core/state.c, lines 184-216):
the mime argument is the magic_file result, none when libmagic fails.
The text override list is consulted first, then the binary override list,
then the application/(not json), image/, video/ rule; everything else,
including a failed MIME lookup, counts as text. -/
def mimeIsBinary (config : AppConfig) (mime : Option String) : Bool :=
  match mime with
  | none => false
  | some m =>
    let is_forced_text := config.text_mimes.any (fun s => s == m)
    let is_forced_binary := config.binary_mimes.any (fun s => s == m)
    if is_forced_text then false
    else if is_forced_binary then true
    else if (str_starts_with "application/" m && !(m == "application/json"))
            || str_starts_with "image/" m || str_starts_with "video/" m then true
    else false

/-- The view classification of state_init (src/core/state.c, lines 172-226),
as a function of the force mode, the plugin registry, the configuration and
the MIME lookup result. -/
def classify (force : ForceViewMode) (plugins : List ArchivePlugin) (config : AppConfig)
    (mime : Option String) (filepath : String) : ViewMode :=
  match force with
  | .fvText => .normal
  | .fvHex => .binaryHex
  | .fvNone =>
    match pm_get_handler plugins filepath with
    | some _ => .archive
    | none => if mimeIsBinary config mime then .binaryHex else .normal

/-- Offset of the first occurrence of term in s, or none: the strstr calls
in state_perform_search (src/core/state.c, line 371). -/
def strstrPos {α : Type} [DecidableEq α] (term : List α) : List α → Option Nat
  | [] => if term.isPrefixOf ([] : List α) then some 0 else none
  | a :: rest =>
    if term.isPrefixOf (a :: rest) then some 0
    else (strstrPos term rest).map (fun q => q + 1)

/-- The scan loop of state_perform_search on one line (src/core/state.c,
lines 370-386): find the next occurrence, record its offset, and resume one
element past the start of the match. The fuel argument bounds the number of
iterations; the C loop needs at most length-plus-one of them because each
iteration advances the pointer by at least one byte. -/
def scanLoop {α : Type} [DecidableEq α] (term : List α) : Nat → List α → Nat → List Nat
  | 0, _, _ => []
  | fuel + 1, s, base =>
    match strstrPos term s with
    | none => []
    | some q => (base + q) :: scanLoop term fuel (s.drop (q + 1)) (base + q + 1)

/-- All match offsets recorded for one content line. -/
def line_matches {α : Type} [DecidableEq α] (term line : List α) : List Nat :=
  scanLoop term (line.length + 1) line 0

/-- Specification-level set of occurrences: every position of the line at
which term occurs, in increasing order. -/
def occs {α : Type} [DecidableEq α] (term s : List α) : List Nat :=
  (List.range s.length).filter (fun p => term.isPrefixOf (s.drop p))

/-- The per-line loop of state_perform_search over the whole content store
(src/core/state.c, lines 368-387), accumulating matches line by line with
the running line index. -/
def scanLines {α : Type} [DecidableEq α] (term : List α) :
    List (List α) → Nat → List SearchMatch
  | [], _ => []
  | l :: ls, i =>
    (line_matches term l).map (fun c => SearchMatch.mk i c) ++ scanLines term ls (i + 1)

/-- The central application state (struct AppState in include/core/state.h),
restricted to the fields the state engine reads or writes. The ncurses
windows, theme handle, theme path list and themes_dir_path feed only the
drawing layer and are not part of the model. Content lines are byte lists;
metadata lines are kept as strings. -/
structure AppState where
  metadata : List String
  content : List (List Nat)
  filepath : Option String
  max_line_len : Nat
  top_line : Nat
  left_char : Nat
  view_mode : ViewMode
  mode : AppMode
  line_wrap_enabled : Bool
  force_view_mode : ForceViewMode
  breadcrumbs : List String
  config : AppConfig
  search_term : List Nat
  search_term_active : Bool
  search_results : SearchMatchList
  deriving DecidableEq, Repr

/-- Results of the file-system and libmagic calls that state_init and
state_reload_content make, supplied as oracles per path. Each populating
call returns the lines it managed to add to the freshly-emptied store
together with its result code, mirroring the C interfaces (a failing
read_file_content leaves the lines read so far in the list). -/
structure LoadEnv where
  plugins : List ArchivePlugin
  mime : String → Option String
  file_info : String → List String × FatResult
  read_file : String → List (List Nat) × FatResult
  hex_dump : String → List (List Nat) × FatResult

/-- Top of the breadcrumb stack (lines[count - 1] in the C code). -/
def topPath (bc : List String) : String :=
  (bc.getLast?).getD ""

/-- Longest byte length among the content lines, as recomputed after every
load (src/core/state.c, lines 239-243). -/
def maxLineLen (content : List (List Nat)) : Nat :=
  content.foldl (fun m l => if l.length > m then l.length else m) 0

/-- state_destroy_view (src/core/state.c, lines 302-311): frees both line
stores and the path, clears the active-search flag and frees the match
array. The count field of the match list is not touched, matching the C
code. -/
def state_destroy_view (st : AppState) : AppState :=
  { st with metadata := [], content := [], search_term_active := false,
            filepath := none,
            search_results := { st.search_results with «matches» := [] } }

/-- The state mutations of state_init before any file operation
(src/core/state.c, lines 37, 93-113): destroy the previous view, store the
new path, push it on the breadcrumbs unless it already tops the stack, and
reset input mode, wrap flag, scroll cursor and search state. The first-run
discovery block and the theme juggling touch only components outside the
model. -/
def state_init_view_setup (st0 : AppState) (filepath : String) : AppState :=
  let st := state_destroy_view st0
  let st := { st with filepath := some filepath }
  let st :=
    if st.breadcrumbs.getLast? ≠ some filepath then
      { st with breadcrumbs := st.breadcrumbs ++ [filepath] }
    else st
  { st with mode := AppMode.normal, line_wrap_enabled := false,
            top_line := 0, left_char := 0,
            search_term_active := false,
            search_results := ⟨[], 0, 0⟩ }

/-- The classification and content rendering of state_init
(src/core/state.c, lines 172-226): the chosen view mode together with the
populated content store and its result code. -/
def classify_render (env : LoadEnv) (st : AppState) (filepath : String) :
    ViewMode × (List (List Nat) × FatResult) :=
  match st.force_view_mode with
  | .fvText => (ViewMode.normal, env.read_file filepath)
  | .fvHex => (ViewMode.binaryHex, env.hex_dump filepath)
  | .fvNone =>
    match pm_get_handler env.plugins filepath with
    | some handler => (ViewMode.archive, handler.list_contents filepath)
    | none =>
      if mimeIsBinary st.config (env.mime filepath) then
        (ViewMode.binaryHex, env.hex_dump filepath)
      else (ViewMode.normal, env.read_file filepath)

/-- state_init (src/core/state.c, lines 32-250) on the modelled fields:
set up the view, fetch the metadata, classify and render the content,
append the count metadata line, and recompute the longest line; any
failure tears the view down again before returning the error. Memory
allocation failures of strdup and StringList_add are not modelled. -/
def state_init (env : LoadEnv) (st0 : AppState) (filepath : String) :
    AppState × FatResult :=
  let st := state_init_view_setup st0 filepath
  let infoRes := env.file_info filepath
  let st := { st with metadata := infoRes.1 }
  if infoRes.2 ≠ FatResult.success then (state_destroy_view st, infoRes.2)
  else
    let rendered := classify_render env st filepath
    let st := { st with view_mode := rendered.1, content := rendered.2.1 }
    if rendered.2.2 ≠ FatResult.success then (state_destroy_view st, rendered.2.2)
    else
      let countLine :=
        (if st.view_mode = ViewMode.archive then "Entries" else "Lines")
          ++ ": " ++ toString st.content.length
      let st := { st with metadata := st.metadata ++ [countLine] }
      let st := { st with max_line_len := maxLineLen st.content }
      (st, FatResult.success)

/-- The re-rendering step of state_reload_content (src/core/state.c, lines
267-272): read the stored path as text lines or as a hex dump according to
the new mode; neither branch applies in archive mode, leaving the freed
content store and a success code. -/
def reload_render (env : LoadEnv) (fp : Option String) (new_mode : ViewMode) :
    List (List Nat) × FatResult :=
  match new_mode with
  | .normal => env.read_file (fp.getD "")
  | .binaryHex => env.hex_dump (fp.getD "")
  | .archive => ([], FatResult.success)

/-- state_reload_content (src/core/state.c, lines 255-296): free the old
content, drop the trailing count metadata line, switch the view mode,
re-render from the stored path, and on success append the new count line,
recompute the longest line and reset scroll and search-active state. On a
render failure the function returns at once, leaving everything else as it
stands. -/
def state_reload_content (env : LoadEnv) (st0 : AppState) (new_mode : ViewMode) :
    AppState × FatResult :=
  let st := { st0 with content := ([] : List (List Nat)),
                       metadata := st0.metadata.dropLast }
  let st := { st with view_mode := new_mode }
  let rendered := reload_render env st.filepath new_mode
  let st := { st with content := rendered.1 }
  if rendered.2 ≠ FatResult.success then (st, rendered.2)
  else
    let st := { st with metadata := st.metadata ++ ["Lines: " ++ toString st.content.length] }
    let st := { st with max_line_len := maxLineLen st.content }
    let st := { st with top_line := 0, left_char := 0, search_term_active := false }
    (st, FatResult.success)

/-- state_perform_search (src/core/state.c, lines 356-396): clear the
previous result set; an inactive or empty term is a success with no
matches; otherwise scan every content line, and either jump the viewport to
the first match or report FAT_ERROR_FILE_NOT_FOUND when nothing matched. -/
def state_perform_search (st0 : AppState) : AppState × FatResult :=
  let st := { st0 with search_results := ⟨[], 0, 0⟩ }
  if ¬ st.search_term_active ∨ st.search_term = [] then (st, FatResult.success)
  else
    let ms := scanLines st.search_term st.content 0
    let st := { st with search_results := ⟨ms, ms.length, 0⟩ }
    if ms.length > 0 then
      ({ st with top_line := (ms.getD 0 ⟨0, 0⟩).line_idx }, FatResult.success)
    else (st, FatResult.errorFileNotFound)

/-- The temp-file marker of cleanup_temp_file_if_exists
(src/utils/utils.c, lines 75-90) on POSIX: the path is deleted exactly when
it starts with this string. -/
def tempFileMarker : String := "/tmp/fat-"

/-- cleanup_temp_file_if_exists as a predicate: true when the path names a
file the call would remove from disk. -/
def is_temp_file_path (path : String) : Bool :=
  str_starts_with tempFileMarker path

/-- The ACTION_GO_BACK case of process_input in the text and hex views
(src/core/controller.c, lines 270-284). With more than one breadcrumb: the
top entry is deleted from disk when temp-named, popped, and the new top is
reloaded through state_init. With a single breadcrumb and an active search:
the term is emptied, the flag cleared and the result set freed (the
current-match index is left as is, matching the C code). Otherwise nothing
happens. The third component reports the path removed from disk, if any. -/
def action_go_back (env : LoadEnv) (st : AppState) :
    AppState × FatResult × Option String :=
  if st.breadcrumbs.length > 1 then
    let popped := topPath st.breadcrumbs
    let removed := if is_temp_file_path popped then some popped else none
    let bc := st.breadcrumbs.dropLast
    let loaded := state_init env { st with breadcrumbs := bc } (topPath bc)
    (loaded.1, loaded.2, removed)
  else if st.search_term_active then
    ({ st with search_term := [], search_term_active := false,
               search_results := ⟨[], 0, st.search_results.current_match_idx⟩ },
     FatResult.success, none)
  else (st, FatResult.success, none)

/-- The ACTION_TOGGLE_VIEW_MODE case of process_input
(src/core/controller.c, lines 191-197): only flips between the text and hex
views through state_reload_content; in the archive view the action is not
in the dispatch table of the case and nothing happens. -/
def action_toggle_view_mode (env : LoadEnv) (st : AppState) : AppState × FatResult :=
  match st.view_mode with
  | .normal => state_reload_content env st ViewMode.binaryHex
  | .binaryHex => state_reload_content env st ViewMode.normal
  | .archive => (st, FatResult.success)

/-- The ACTION_SEARCH case of process_input (src/core/controller.c, lines
229-239) together with ui_get_search_input (src/ui/ui.c, lines 377-415):
the prompt stores the entered term and sets the active flag exactly when
the term is non-empty; a FAT_ERROR_FILE_NOT_FOUND from the scan is turned
into a cleared active flag and a success (the no-matches message is a
drawing effect outside the model). -/
def action_search (st0 : AppState) (input : List Nat) : AppState × FatResult :=
  let st := { st0 with mode := AppMode.normal, search_term := input,
                       search_term_active := input ≠ [] }
  if st.search_term_active then
    let done := state_perform_search st
    if done.2 = FatResult.errorFileNotFound then
      ({ done.1 with search_term_active := false }, FatResult.success)
    else done
  else (st, FatResult.success)

/-- The ACTION_NEXT_MATCH case of process_input (src/core/controller.c,
lines 241-249): cyclically advance the current-match index and move the
viewport to that match; without an active search or with an empty result
set the action fails with FAT_ERROR_UNSUPPORTED. -/
def action_next_match (st : AppState) : AppState × FatResult :=
  if st.search_term_active ∧ st.search_results.count > 0 then
    let idx := (st.search_results.current_match_idx + 1) % st.search_results.count
    let m := st.search_results.«matches».getD idx ⟨0, 0⟩
    ({ st with search_results := { st.search_results with current_match_idx := idx },
               top_line := m.line_idx }, FatResult.success)
  else (st, FatResult.errorUnsupported)

/-- The ACTION_PREV_MATCH case of process_input (src/core/controller.c,
lines 251-263): cyclically retreat the current-match index, wrapping from
zero to count - 1, and move the viewport to that match; without an active
search or with an empty result set the action fails with
FAT_ERROR_UNSUPPORTED. -/
def action_prev_match (st : AppState) : AppState × FatResult :=
  if st.search_term_active ∧ st.search_results.count > 0 then
    let idx :=
      if st.search_results.current_match_idx = 0 then st.search_results.count - 1
      else st.search_results.current_match_idx - 1
    let m := st.search_results.«matches».getD idx ⟨0, 0⟩
    ({ st with search_results := { st.search_results with current_match_idx := idx },
               top_line := m.line_idx }, FatResult.success)
  else (st, FatResult.errorUnsupported)

/-- utf8_char_len (src/utils/utf8_utils.c, lines 13-21) on the byte suffix
starting at the scanned position: zero for the empty suffix or a NUL byte,
the sequence length decoded from the lead byte otherwise, one for an
invalid lead byte. -/
def utf8_char_len : List Nat → Nat
  | [] => 0
  | b :: _ =>
    if b = 0 then 0
    else if b < 0x80 then 1
    else if b &&& 0xE0 = 0xC0 then 2
    else if b &&& 0xF0 = 0xE0 then 3
    else if b &&& 0xF8 = 0xF0 then 4
    else 1

/-- The backward scan of utf8_prev_char_start (src/utils/utf8_utils.c,
lines 29-37): starting at a candidate position, step back while the byte
under the cursor is a continuation byte and the position is positive. -/
def utf8_scan_back (s : List Nat) : Nat → Nat
  | 0 => 0
  | pos + 1 =>
    if (s.getD (pos + 1) 0) &&& 0xC0 = 0x80 then utf8_scan_back s pos
    else pos + 1

/-- utf8_prev_char_start (src/utils/utf8_utils.c, lines 29-37): position of
the start of the previous character, zero when already at the start. -/
def utf8_prev_char_start (s : List Nat) (current_pos : Nat) : Nat :=
  if current_pos = 0 then 0 else utf8_scan_back s (current_pos - 1)

/-- Horizontal scroll actions of the controller. -/
inductive ScrollAct where
  | left
  | right
  deriving DecidableEq, Repr

/-- The ACTION_SCROLL_RIGHT case of process_input (src/core/controller.c,
lines 204-211) on the current line: with wrapping off and room within the
scroll limit, advance by the byte length of the character at the cursor,
provided the cursor is inside the line. -/
def action_scroll_right (wrap : Bool) (maxScroll : Nat) (line : List Nat) (pos : Nat) : Nat :=
  if ¬ wrap ∧ pos < maxScroll then
    if pos < line.length then pos + utf8_char_len (line.drop pos) else pos
  else pos

/-- The ACTION_SCROLL_LEFT case of process_input (src/core/controller.c,
lines 212-217) on the current line: with wrapping off and a positive
cursor, retreat to the start of the previous character. -/
def action_scroll_left (wrap : Bool) (line : List Nat) (pos : Nat) : Nat :=
  if ¬ wrap ∧ pos > 0 then utf8_prev_char_start line pos else pos

/-- One horizontal scroll step. -/
def scroll_step (wrap : Bool) (maxScroll : Nat) (line : List Nat) (pos : Nat) :
    ScrollAct → Nat
  | .right => action_scroll_right wrap maxScroll line pos
  | .left => action_scroll_left wrap line pos

/-- A whole sequence of horizontal scroll actions applied from a starting
cursor. -/
def scroll_run (wrap : Bool) (maxScroll : Nat) (line : List Nat) (start : Nat)
    (acts : List ScrollAct) : Nat :=
  acts.foldl (fun p a => scroll_step wrap maxScroll line p a) start

/-- A UTF-8 continuation byte: its top two bits are 10. -/
def IsContByte (b : Nat) : Prop := 0x80 ≤ b ∧ b < 0xC0

instance (b : Nat) : Decidable (IsContByte b) := by
  unfold IsContByte; infer_instance

/-- A byte list that is a concatenation of well-formed UTF-8 character
encodings, with no embedded NUL (a C string holds its bytes before the
terminator). Lead bytes of one- to four-byte sequences carry the patterns
0xxxxxxx, 110xxxxx, 1110xxxx and 11110xxx respectively, and every
subsequent byte of a sequence is a continuation byte. -/
inductive Utf8Valid : List Nat → Prop where
  | nil : Utf8Valid []
  | one {b : Nat} {rest : List Nat} :
      0 < b → b < 0x80 → Utf8Valid rest → Utf8Valid (b :: rest)
  | two {b c : Nat} {rest : List Nat} :
      0xC0 ≤ b → b < 0xE0 → IsContByte c → Utf8Valid rest →
      Utf8Valid (b :: c :: rest)
  | three {b c d : Nat} {rest : List Nat} :
      0xE0 ≤ b → b < 0xF0 → IsContByte c → IsContByte d → Utf8Valid rest →
      Utf8Valid (b :: c :: d :: rest)
  | four {b c d e : Nat} {rest : List Nat} :
      0xF0 ≤ b → b < 0xF8 → IsContByte c → IsContByte d → IsContByte e →
      Utf8Valid rest → Utf8Valid (b :: c :: d :: e :: rest)

/-- A byte offset into a line that starts a character (or sits at the very
end): the suffix from there on is itself a well-formed encoding. -/
def Utf8Boundary (line : List Nat) (p : Nat) : Prop :=
  p ≤ line.length ∧ Utf8Valid (line.drop p)

/-- Navigation events that reach state_init: a load (the initial file or an
extracted archive entry being confirmed) and the go-back action. -/
inductive NavEvent where
  | load (path : String)
  | goBack

/-- The application state together with the bookkeeping of which load was
attempted or completed most recently, used to state the breadcrumb
invariant. allOk records whether every load attempt so far succeeded. -/
structure NavTrace where
  st : AppState
  lastAttempt : Option String
  lastLoaded : Option String
  allOk : Bool

/-- One navigation event. Loads call state_init; go-back runs the
controller branch, and counts as a load attempt of the uncovered top
exactly when the stack had more than one entry. -/
def nav_step (env : LoadEnv) (t : NavTrace) : NavEvent → NavTrace
  | .load p =>
    let r := state_init env t.st p
    { st := r.1, lastAttempt := some p,
      lastLoaded := if r.2 = FatResult.success then some p else t.lastLoaded,
      allOk := t.allOk && decide (r.2 = FatResult.success) }
  | .goBack =>
    let r := action_go_back env t.st
    if t.st.breadcrumbs.length > 1 then
      let p := topPath t.st.breadcrumbs.dropLast
      { st := r.1, lastAttempt := some p,
        lastLoaded := if r.2.1 = FatResult.success then some p else t.lastLoaded,
        allOk := t.allOk && decide (r.2.1 = FatResult.success) }
    else { t with st := r.1 }

/-- A whole sequence of navigation events. -/
def nav_run (env : LoadEnv) (t : NavTrace) (evs : List NavEvent) : NavTrace :=
  evs.foldl (nav_step env) t

/-- Strict ordering of search matches: by line index, then by byte offset
within the line. -/
def SearchMatch.lt (a b : SearchMatch) : Prop :=
  a.line_idx < b.line_idx ∨ (a.line_idx = b.line_idx ∧ a.char_idx < b.char_idx)

/-- The state after one ACTION_NEXT_MATCH keypress. -/
def stepNextMatch (st : AppState) : AppState :=
  (action_next_match st).1

/-- A freshly zeroed application state, used as the base of the concrete
states below. -/
def baseState : AppState :=
  { metadata := [], content := [], filepath := none, max_line_len := 0,
    top_line := 0, left_char := 0, view_mode := ViewMode.normal,
    mode := AppMode.normal, line_wrap_enabled := false,
    force_view_mode := ForceViewMode.fvNone, breadcrumbs := [],
    config := ⟨[], []⟩, search_term := [], search_term_active := false,
    search_results := ⟨[], 0, 0⟩ }

/-- An environment in which every call succeeds: no plugins, no MIME
answer, one metadata line, one text line of content, one hex line. -/
def envOk : LoadEnv :=
  { plugins := [], mime := fun _ => none,
    file_info := fun _ => (["File: f"], FatResult.success),
    read_file := fun _ => ([[104, 105]], FatResult.success),
    hex_dump := fun _ => ([[48, 48]], FatResult.success) }

/-- An environment whose content reads fail after having stored one partial
line, the way a failing read_file_content leaves the lines read so far. -/
def envReadFail : LoadEnv :=
  { plugins := [], mime := fun _ => none,
    file_info := fun _ => (["File: f"], FatResult.success),
    read_file := fun _ => ([[104]], FatResult.errorFileRead),
    hex_dump := fun _ => ([[104]], FatResult.errorFileRead) }

/-- An environment in which stat itself fails for every path. -/
def envInfoFail : LoadEnv :=
  { plugins := [], mime := fun _ => none,
    file_info := fun _ => ([], FatResult.errorFileNotFound),
    read_file := fun _ => ([], FatResult.success),
    hex_dump := fun _ => ([], FatResult.success) }

/-- An environment in which only the path b cannot be loaded (its stat
fails); every other path loads fine. -/
def envBFails : LoadEnv :=
  { plugins := [], mime := fun _ => none,
    file_info := fun p => if p = "b" then ([], FatResult.errorFileNotFound)
                          else (["File: ok"], FatResult.success),
    read_file := fun _ => ([[104]], FatResult.success),
    hex_dump := fun _ => ([[104]], FatResult.success) }

/-- A state that looks like the result of a successful text-mode load of
the file f, with an active search holding one match. -/
def stLoaded : AppState :=
  { baseState with
      metadata := ["File: f", "Lines: 1"], content := [[104, 105]],
      filepath := some "f", max_line_len := 2, breadcrumbs := ["f"],
      search_term := [104], search_term_active := true,
      search_results := ⟨[⟨0, 0⟩], 1, 0⟩ }

/-- A state with an active one-byte search term over an empty content
store. -/
def stEmptyContentSearch : AppState :=
  { baseState with search_term := [97], search_term_active := true }

/-- A state with an active search of two recorded matches, used to exercise
the match-cycling actions. -/
def stTwoMatches : AppState :=
  { baseState with
      content := [[97], [97]], filepath := some "f", breadcrumbs := ["f"],
      search_term := [97], search_term_active := true,
      search_results := ⟨[⟨0, 0⟩, ⟨1, 0⟩], 2, 0⟩ }

theorem strstrPos_nil_of_ne {α : Type} [DecidableEq α] {term : List α} (h : term ≠ []) :
    strstrPos term ([] : List α) = none := by
  unfold strstrPos
  simp [List.isPrefixOf_iff_prefix, h]

theorem strstrPos_lt_length {α : Type} [DecidableEq α] {term : List α} (h : term ≠ []) :
    ∀ {s : List α} {q : Nat}, strstrPos term s = some q → q < s.length
  | [], q => by rw [strstrPos_nil_of_ne h]; intro hq; cases hq
  | a :: s, q => by
    unfold strstrPos
    by_cases hp : term.isPrefixOf (a :: s)
    · simp only [hp, if_pos]
      intro hq
      cases hq
      simp
    · simp only [hp, if_neg, Bool.false_eq_true, not_false_iff, Option.map_eq_some']
      rintro ⟨q', hq', rfl⟩
      have := strstrPos_lt_length h hq'
      simp only [List.length_cons]
      omega

theorem occs_cons {α : Type} [DecidableEq α] (term : List α) (a : α) (s : List α) :
    occs term (a :: s) =
      (if term.isPrefixOf (a :: s) then [0] else [])
        ++ (occs term s).map (fun p => p + 1) := by
  unfold occs
  rw [List.length_cons, List.range_succ_eq_map, List.filter_cons, List.filter_map]
  by_cases h : term.isPrefixOf (a :: s) <;>
    simp [h, Function.comp_def, Nat.succ_eq_add_one]

theorem occs_eq_strstr {α : Type} [DecidableEq α] {term : List α} (h : term ≠ []) :
    ∀ s : List α, occs term s =
      match strstrPos term s with
      | none => []
      | some q => q :: (occs term (s.drop (q + 1))).map (fun p => q + 1 + p)
  | [] => by
    rw [strstrPos_nil_of_ne h]
    rfl
  | a :: s => by
    rw [occs_cons]
    unfold strstrPos
    by_cases hp : term.isPrefixOf (a :: s)
    · simp only [hp, if_pos]
      have h1 : (a :: s).drop 1 = s := rfl
      simp [h1, Nat.add_comm]
    · simp only [hp, if_neg, Bool.false_eq_true, not_false_iff, List.nil_append]
      rw [occs_eq_strstr h s]
      cases hq : strstrPos term s with
      | none => simp
      | some q =>
        simp only [Option.map_some']
        have h2 : (a :: s).drop (q + 1 + 1) = s.drop (q + 1) := rfl
        have hfg : ((fun p => p + 1) ∘ fun p => q + 1 + p) = (fun p : Nat => q + 1 + 1 + p) := by
          funext p
          simp only [Function.comp_apply]
          omega
        rw [h2, List.map_cons, List.map_map, hfg]

theorem scanLoop_eq_occs {α : Type} [DecidableEq α] {term : List α} (h : term ≠ []) :
    ∀ (fuel : Nat) (s : List α) (base : Nat), s.length < fuel →
      scanLoop term fuel s base = (occs term s).map (fun p => base + p)
  | 0, s, _, hf => absurd hf (by omega)
  | fuel + 1, s, base, hf => by
    rw [occs_eq_strstr h s]
    unfold scanLoop
    cases hq : strstrPos term s with
    | none => simp
    | some q =>
      have hql : q < s.length := strstrPos_lt_length h hq
      have hdrop : (s.drop (q + 1)).length < fuel := by
        rw [List.length_drop]
        omega
      simp only
      rw [scanLoop_eq_occs h fuel (s.drop (q + 1)) (base + q + 1) hdrop]
      have hfg : ((fun p => base + p) ∘ fun p => q + 1 + p) = (fun p : Nat => base + q + 1 + p) := by
        funext p
        simp only [Function.comp_apply]
        omega
      rw [List.map_cons, List.map_map, hfg]

theorem line_matches_eq_occs {α : Type} [DecidableEq α] {term : List α} (h : term ≠ [])
    (line : List α) : line_matches term line = occs term line := by
  unfold line_matches
  rw [scanLoop_eq_occs h _ _ _ (by omega)]
  simp

theorem mem_occs_iff {α : Type} [DecidableEq α] {term s : List α} {p : Nat} :
    p ∈ occs term s ↔ p < s.length ∧ term <+: s.drop p := by
  simp [occs, List.mem_filter, List.mem_range, List.isPrefixOf_iff_prefix]

theorem occs_pairwise_lt {α : Type} [DecidableEq α] (term s : List α) :
    (occs term s).Pairwise (· < ·) :=
  (List.pairwise_lt_range _).filter _

theorem scanLines_line_idx_le {α : Type} [DecidableEq α] (term : List α) :
    ∀ (ls : List (List α)) (i : Nat) (m : SearchMatch),
      m ∈ scanLines term ls i → i ≤ m.line_idx
  | [], i, m => by simp [scanLines]
  | l :: ls, i, m => by
    simp only [scanLines, List.mem_append, List.mem_map]
    rintro (⟨c, _, rfl⟩ | hm)
    · simp
    · have := scanLines_line_idx_le term ls (i + 1) m hm
      omega

theorem scanLines_pairwise {α : Type} [DecidableEq α] {term : List α} (h : term ≠ []) :
    ∀ (ls : List (List α)) (i : Nat), (scanLines term ls i).Pairwise SearchMatch.lt
  | [], i => by simp [scanLines]
  | l :: ls, i => by
    simp only [scanLines]
    rw [List.pairwise_append]
    refine ⟨?_, scanLines_pairwise h ls (i + 1), ?_⟩
    · rw [List.pairwise_map]
      have hocc : (line_matches term l).Pairwise (· < ·) := by
        rw [line_matches_eq_occs h l]
        exact occs_pairwise_lt term l
      exact hocc.imp (fun hab => Or.inr ⟨rfl, hab⟩)
    · intro a ha b hb
      simp only [List.mem_map] at ha
      obtain ⟨c, _, rfl⟩ := ha
      have := scanLines_line_idx_le term ls (i + 1) b hb
      exact Or.inl (by simp only; omega)

/-- Claim C6: the search records every literal occurrence of the term,
including overlapping ones, because the scan resumes one byte past each
match start rather than past the full match: for a non-empty term the
recorded offsets are exactly the positions at which the term occurs, in
particular searching aa in the line baaab records offsets 1 and 2, and in
aaa records offsets 0 and 1. -/
theorem claim_C6_overlapping_matches :
    (∀ (term line : List Nat), term ≠ [] →
        line_matches term line = occs term line
        ∧ ∀ p : Nat, (p ∈ line_matches term line ↔ p < line.length ∧ term <+: line.drop p))
    ∧ line_matches ([97, 97] : List Nat) [98, 97, 97, 97, 98] = [1, 2]
    ∧ line_matches ([97, 97] : List Nat) [97, 97, 97] = [0, 1] := by
  refine ⟨fun term line h => ⟨line_matches_eq_occs h line, fun p => ?_⟩, by decide, by decide⟩
  rw [line_matches_eq_occs h line]
  exact mem_occs_iff

/-- Witness for claim C6 at a concrete non-empty term. -/
theorem claim_C6_overlapping_matches_witness :
    line_matches ([97, 97] : List Nat) [97, 97, 97] = occs [97, 97] [97, 97, 97] :=
  (claim_C6_overlapping_matches.1 [97, 97] [97, 97, 97] (by decide)).1

theorem state_perform_search_spec (st : AppState) :
    state_perform_search st =
      if st.search_term_active ∧ st.search_term ≠ [] then
        if 0 < (scanLines st.search_term st.content 0).length then
          ({ st with
              search_results := ⟨scanLines st.search_term st.content 0,
                (scanLines st.search_term st.content 0).length, 0⟩,
              top_line :=
                ((scanLines st.search_term st.content 0).getD 0 ⟨0, 0⟩).line_idx },
           FatResult.success)
        else
          ({ st with
              search_results := ⟨scanLines st.search_term st.content 0,
                (scanLines st.search_term st.content 0).length, 0⟩ },
           FatResult.errorFileNotFound)
      else ({ st with search_results := ⟨[], 0, 0⟩ }, FatResult.success) := by
  unfold state_perform_search
  by_cases h1 : st.search_term_active <;> by_cases h2 : st.search_term = [] <;>
    simp [h1, h2]

theorem action_next_match_pos {st : AppState} (h1 : st.search_term_active)
    (h2 : 0 < st.search_results.count) :
    action_next_match st =
      ({ st with
          search_results := { st.search_results with
            current_match_idx :=
              (st.search_results.current_match_idx + 1) % st.search_results.count },
          top_line := (st.search_results.«matches».getD
            ((st.search_results.current_match_idx + 1) % st.search_results.count)
            ⟨0, 0⟩).line_idx },
       FatResult.success) := by
  unfold action_next_match
  rw [if_pos ⟨h1, h2⟩]

theorem action_prev_match_pos {st : AppState} (h1 : st.search_term_active)
    (h2 : 0 < st.search_results.count) :
    action_prev_match st =
      (let idx := if st.search_results.current_match_idx = 0 then
                    st.search_results.count - 1
                  else st.search_results.current_match_idx - 1
       { st with
          search_results := { st.search_results with current_match_idx := idx },
          top_line := (st.search_results.«matches».getD idx ⟨0, 0⟩).line_idx },
       FatResult.success) := by
  unfold action_prev_match
  rw [if_pos ⟨h1, h2⟩]

theorem action_next_match_neg {st : AppState}
    (h : ¬ (st.search_term_active ∧ 0 < st.search_results.count)) :
    action_next_match st = (st, FatResult.errorUnsupported) := by
  unfold action_next_match
  rw [if_neg h]

theorem action_prev_match_neg {st : AppState}
    (h : ¬ (st.search_term_active ∧ 0 < st.search_results.count)) :
    action_prev_match st = (st, FatResult.errorUnsupported) := by
  unfold action_prev_match
  rw [if_neg h]

theorem stepNextMatch_iter_spec (st : AppState) (h1 : st.search_term_active)
    (h2 : 0 < st.search_results.count)
    (h0 : st.search_results.current_match_idx < st.search_results.count) :
    ∀ k : Nat,
      (stepNextMatch^[k] st).search_term_active = true
      ∧ (stepNextMatch^[k] st).search_results.count = st.search_results.count
      ∧ (stepNextMatch^[k] st).search_results.«matches» = st.search_results.«matches»
      ∧ (stepNextMatch^[k] st).search_results.current_match_idx
          = (st.search_results.current_match_idx + k) % st.search_results.count
  | 0 => by
    refine ⟨h1, rfl, rfl, ?_⟩
    simp [Nat.mod_eq_of_lt h0]
  | k + 1 => by
    obtain ⟨ha, hc, hm, hi⟩ := stepNextMatch_iter_spec st h1 h2 h0 k
    rw [Function.iterate_succ_apply']
    have hstep : stepNextMatch (stepNextMatch^[k] st)
        = (action_next_match (stepNextMatch^[k] st)).1 := rfl
    rw [hstep, action_next_match_pos ha (by rw [hc]; exact h2)]
    refine ⟨ha, by simp [hc], by simp [hm], ?_⟩
    simp only [hc, hi]
    rw [Nat.mod_add_mod]
    congr 1

theorem pairwise_first_line_le {ms : List SearchMatch}
    (h : ms.Pairwise SearchMatch.lt) :
    ∀ m ∈ ms, (ms.getD 0 ⟨0, 0⟩).line_idx ≤ m.line_idx := by
  cases ms with
  | nil => simp
  | cons m0 rest =>
    rw [List.pairwise_cons] at h
    intro m hm
    rcases List.mem_cons.mp hm with rfl | hm'
    · simp
    · have hlt := h.1 m hm'
      rcases hlt with hlt | ⟨heq, _⟩
      · simp only [List.getD_cons_zero]
        omega
      · simp only [List.getD_cons_zero, heq]
        omega

/-- Claim C7: recorded matches are strictly increasing by line index and
byte offset; next-match and prev-match cycle over the fixed result set
without re-scanning (the match list is untouched) and wrap in both
directions; applying next-match exactly count times returns the
current-match index to its original value; and the current-match index
stays below count whenever count is positive. -/
theorem claim_C7_order_and_cycling :
    (∀ st : AppState,
        ((state_perform_search st).1.search_results.«matches»).Pairwise SearchMatch.lt
        ∧ (0 < (state_perform_search st).1.search_results.count →
            (state_perform_search st).1.search_results.current_match_idx
              < (state_perform_search st).1.search_results.count))
    ∧ (∀ st : AppState, st.search_term_active → 0 < st.search_results.count →
        st.search_results.current_match_idx < st.search_results.count →
        ((action_next_match st).1.search_results.«matches» = st.search_results.«matches»
          ∧ (action_next_match st).1.search_results.count = st.search_results.count
          ∧ (action_next_match st).1.search_results.current_match_idx
              = (st.search_results.current_match_idx + 1) % st.search_results.count
          ∧ (action_next_match st).1.search_results.current_match_idx
              < st.search_results.count)
        ∧ ((action_prev_match st).1.search_results.«matches» = st.search_results.«matches»
          ∧ (action_prev_match st).1.search_results.count = st.search_results.count
          ∧ (action_prev_match st).1.search_results.current_match_idx
              = (if st.search_results.current_match_idx = 0 then
                   st.search_results.count - 1
                 else st.search_results.current_match_idx - 1)
          ∧ (action_prev_match st).1.search_results.current_match_idx
              < st.search_results.count))
    ∧ (∀ st : AppState, st.search_term_active → 0 < st.search_results.count →
        st.search_results.current_match_idx < st.search_results.count →
        (stepNextMatch^[st.search_results.count] st).search_results.current_match_idx
          = st.search_results.current_match_idx
        ∧ (stepNextMatch^[st.search_results.count] st).search_results.«matches»
          = st.search_results.«matches») := by
  refine ⟨fun st => ?_, fun st h1 h2 h0 => ?_, fun st h1 h2 h0 => ?_⟩
  · rw [state_perform_search_spec st]
    by_cases h : st.search_term_active ∧ st.search_term ≠ []
    · rw [if_pos h]
      by_cases hlen : 0 < (scanLines st.search_term st.content 0).length
      · rw [if_pos hlen]
        exact ⟨scanLines_pairwise h.2 st.content 0, fun _ => hlen⟩
      · rw [if_neg hlen]
        exact ⟨scanLines_pairwise h.2 st.content 0, fun hc => absurd hc hlen⟩
    · rw [if_neg h]
      exact ⟨List.Pairwise.nil, fun hc => hc⟩
  · constructor
    · rw [action_next_match_pos h1 h2]
      exact ⟨rfl, rfl, rfl, Nat.mod_lt _ h2⟩
    · rw [action_prev_match_pos h1 h2]
      refine ⟨rfl, rfl, rfl, ?_⟩
      by_cases hz : st.search_results.current_match_idx = 0 <;> simp [hz] <;> omega
  · obtain ⟨_, _, hm, hi⟩ :=
      stepNextMatch_iter_spec st h1 h2 h0 st.search_results.count
    refine ⟨?_, hm⟩
    rw [hi, Nat.add_mod_right, Nat.mod_eq_of_lt h0]

/-- Witness for claim C7: cycling twice through a two-match result set
returns the current-match index to its starting value. -/
theorem claim_C7_order_and_cycling_witness :
    (stepNextMatch^[stTwoMatches.search_results.count] stTwoMatches).search_results.current_match_idx
      = stTwoMatches.search_results.current_match_idx :=
  (claim_C7_order_and_cycling.2.2 stTwoMatches (by decide) (by decide) (by decide)).1

/-- Claim C8 (amended): an inactive search or an empty term yields success
with an empty result set; a non-empty active term that occurs nowhere -
including the case of an empty line store, which the claim as stated
wrongly groups with the successes - signals FAT_ERROR_FILE_NOT_FOUND; the
controller search call site converts that signal into a success with the
active-search flag cleared; and next-match and prev-match fail with
FAT_ERROR_UNSUPPORTED when no search is active or the result set is
empty. -/
theorem claim_C8_error_signalling :
    (∀ st : AppState, ¬ st.search_term_active ∨ st.search_term = [] →
        (state_perform_search st).2 = FatResult.success
        ∧ (state_perform_search st).1.search_results.«matches» = [])
    ∧ (∀ st : AppState, st.search_term_active → st.search_term ≠ [] →
        scanLines st.search_term st.content 0 = [] →
        (state_perform_search st).2 = FatResult.errorFileNotFound)
    ∧ (∀ st : AppState, st.search_term_active → st.search_term ≠ [] → st.content = [] →
        (state_perform_search st).2 = FatResult.errorFileNotFound)
    ∧ (∀ (st : AppState) (input : List Nat), input ≠ [] →
        scanLines input st.content 0 = [] →
        (action_search st input).2 = FatResult.success
        ∧ (action_search st input).1.search_term_active = false)
    ∧ (∀ st : AppState, ¬ (st.search_term_active ∧ 0 < st.search_results.count) →
        action_next_match st = (st, FatResult.errorUnsupported)
        ∧ action_prev_match st = (st, FatResult.errorUnsupported)) := by
  have hscan : ∀ (st : AppState), st.search_term_active → st.search_term ≠ [] →
      scanLines st.search_term st.content 0 = [] →
      (state_perform_search st).2 = FatResult.errorFileNotFound := by
    intro st h1 h2 hml
    rw [state_perform_search_spec st, if_pos ⟨h1, h2⟩, if_neg (by rw [hml]; simp)]
  refine ⟨fun st h => ?_, hscan, fun st h1 h2 hc => ?_, fun st input hne hml => ?_,
          fun st h => ⟨action_next_match_neg h, action_prev_match_neg h⟩⟩
  · have hneg : ¬ (st.search_term_active ∧ st.search_term ≠ []) := by
      rcases h with h | h
      · exact fun hx => h hx.1
      · exact fun hx => hx.2 h
    rw [state_perform_search_spec st, if_neg hneg]
    exact ⟨rfl, rfl⟩
  · exact hscan st h1 h2 (by rw [hc]; rfl)
  · unfold action_search
    have hb : (decide (input ≠ []) : Bool) = true := decide_eq_true hne
    have hres := hscan
      { st with mode := AppMode.normal, search_term := input,
                search_term_active := decide (input ≠ []) }
      (by simp [hb]) hne hml
    simp only [hb] at hres
    simp only [hb, if_true]
    rw [if_pos hres]
    exact ⟨rfl, rfl⟩

/-- Witness for claim C8 at a concrete inactive-search state. -/
theorem claim_C8_error_signalling_witness :
    (state_perform_search baseState).2 = FatResult.success
    ∧ (state_perform_search baseState).1.search_results.«matches» = [] :=
  claim_C8_error_signalling.1 baseState (Or.inl (by decide))

/-- Counterexample to claim C8 as stated: searching the non-empty term a
over an empty line store does not return an empty result set as a success;
it signals FAT_ERROR_FILE_NOT_FOUND. -/
theorem claim_C8_counterexample :
    stEmptyContentSearch.search_term_active = true
    ∧ stEmptyContentSearch.search_term ≠ []
    ∧ stEmptyContentSearch.content = []
    ∧ (state_perform_search stEmptyContentSearch).2 = FatResult.errorFileNotFound
    ∧ (state_perform_search stEmptyContentSearch).2 ≠ FatResult.success := by
  decide

/-- Claim C10: a successful search repositions the viewport to the line of
the first match, which is the topmost one; each next-match or prev-match
repositions it to the line of the new current match. -/
theorem claim_C10_viewport_follows_matches :
    (∀ st : AppState,
        0 < (state_perform_search st).1.search_results.count →
        (state_perform_search st).1.top_line
          = ((state_perform_search st).1.search_results.«matches».getD 0 ⟨0, 0⟩).line_idx
        ∧ ∀ m ∈ (state_perform_search st).1.search_results.«matches»,
            (state_perform_search st).1.top_line ≤ m.line_idx)
    ∧ (∀ st : AppState, st.search_term_active → 0 < st.search_results.count →
        (action_next_match st).1.top_line
          = (st.search_results.«matches».getD
              ((st.search_results.current_match_idx + 1) % st.search_results.count)
              ⟨0, 0⟩).line_idx)
    ∧ (∀ st : AppState, st.search_term_active → 0 < st.search_results.count →
        (action_prev_match st).1.top_line
          = (st.search_results.«matches».getD
              (if st.search_results.current_match_idx = 0 then
                 st.search_results.count - 1
               else st.search_results.current_match_idx - 1) ⟨0, 0⟩).line_idx) := by
  refine ⟨fun st hcount => ?_, fun st h1 h2 => ?_, fun st h1 h2 => ?_⟩
  · rw [state_perform_search_spec st] at hcount ⊢
    by_cases h : st.search_term_active ∧ st.search_term ≠ []
    · rw [if_pos h] at hcount ⊢
      by_cases hlen : 0 < (scanLines st.search_term st.content 0).length
      · rw [if_pos hlen] at hcount ⊢
        refine ⟨rfl, ?_⟩
        intro m hm
        exact pairwise_first_line_le (scanLines_pairwise h.2 st.content 0) m hm
      · rw [if_neg hlen] at hcount
        exact absurd hcount hlen
    · rw [if_neg h] at hcount
      exact absurd hcount (by simp)
  · rw [action_next_match_pos h1 h2]
  · rw [action_prev_match_pos h1 h2]

/-- Witness for claim C10: next-match from the first of two matches moves
the viewport to the line of the second match. -/
theorem claim_C10_viewport_follows_matches_witness :
    (action_next_match stTwoMatches).1.top_line
      = (stTwoMatches.search_results.«matches».getD
          ((stTwoMatches.search_results.current_match_idx + 1)
            % stTwoMatches.search_results.count) ⟨0, 0⟩).line_idx :=
  claim_C10_viewport_follows_matches.2.1 stTwoMatches (by decide) (by decide)

theorem any_beq_iff_mem {l : List String} {m : String} :
    l.any (fun s => s == m) = true ↔ m ∈ l := by
  simp [List.any_eq_true]

theorem state_init_view_setup_fields (st0 : AppState) (p : String) :
    (state_init_view_setup st0 p).filepath = some p
    ∧ (state_init_view_setup st0 p).breadcrumbs
        = (if st0.breadcrumbs.getLast? ≠ some p then st0.breadcrumbs ++ [p]
           else st0.breadcrumbs)
    ∧ (state_init_view_setup st0 p).top_line = 0
    ∧ (state_init_view_setup st0 p).left_char = 0
    ∧ (state_init_view_setup st0 p).search_term_active = false
    ∧ (state_init_view_setup st0 p).search_results = ⟨[], 0, 0⟩
    ∧ (state_init_view_setup st0 p).mode = AppMode.normal
    ∧ (state_init_view_setup st0 p).line_wrap_enabled = false
    ∧ (state_init_view_setup st0 p).config = st0.config
    ∧ (state_init_view_setup st0 p).force_view_mode = st0.force_view_mode := by
  unfold state_init_view_setup state_destroy_view
  by_cases hg : st0.breadcrumbs.getLast? ≠ some p <;> simp [hg]

theorem state_init_view_setup_top (st0 : AppState) (p : String) :
    (state_init_view_setup st0 p).breadcrumbs.getLast? = some p := by
  rw [(state_init_view_setup_fields st0 p).2.1]
  by_cases hg : st0.breadcrumbs.getLast? ≠ some p
  · rw [if_pos hg]
    rw [List.getLast?_concat]
  · rw [if_neg hg]
    exact not_not.mp hg

theorem state_init_breadcrumbs (env : LoadEnv) (st0 : AppState) (p : String) :
    (state_init env st0 p).1.breadcrumbs = (state_init_view_setup st0 p).breadcrumbs := by
  unfold state_init
  dsimp only
  split
  · simp [state_destroy_view]
  · split
    · simp [state_destroy_view]
    · simp

theorem state_init_top (env : LoadEnv) (st0 : AppState) (p : String) :
    (state_init env st0 p).1.breadcrumbs.getLast? = some p := by
  rw [state_init_breadcrumbs]
  exact state_init_view_setup_top st0 p

theorem state_init_fail_fields (env : LoadEnv) (st0 : AppState) (p : String)
    (h : (state_init env st0 p).2 ≠ FatResult.success) :
    (state_init env st0 p).1.metadata = []
    ∧ (state_init env st0 p).1.content = []
    ∧ (state_init env st0 p).1.search_term_active = false
    ∧ (state_init env st0 p).1.search_results = ⟨[], 0, 0⟩
    ∧ (state_init env st0 p).1.filepath = none := by
  revert h
  unfold state_init
  dsimp only
  split
  · intro _
    simp [state_destroy_view, (state_init_view_setup_fields st0 p).2.2.2.2.2.1]
  · split
    · intro _
      simp [state_destroy_view, (state_init_view_setup_fields st0 p).2.2.2.2.2.1]
    · intro h
      exact absurd rfl h

theorem state_init_success_fields (env : LoadEnv) (st0 : AppState) (p : String)
    (h : (state_init env st0 p).2 = FatResult.success) :
    (state_init env st0 p).1.filepath = some p
    ∧ (state_init env st0 p).1.top_line = 0
    ∧ (state_init env st0 p).1.left_char = 0
    ∧ (state_init env st0 p).1.search_term_active = false
    ∧ (state_init env st0 p).1.search_results = ⟨[], 0, 0⟩
    ∧ (state_init env st0 p).1.mode = AppMode.normal
    ∧ (state_init env st0 p).1.line_wrap_enabled = false := by
  revert h
  unfold state_init
  dsimp only
  split
  · rename_i hinfo
    intro h
    exact absurd h hinfo
  · split
    · rename_i hrend
      intro h
      exact absurd h hrend
    · intro _
      obtain ⟨h1, _, h3, h4, h5, h6, h7, h8, _⟩ := state_init_view_setup_fields st0 p
      exact ⟨h1, h3, h4, h5, h6, h7, h8⟩

theorem state_reload_content_fail_fields (env : LoadEnv) (st0 : AppState)
    (mode : ViewMode) (h : (state_reload_content env st0 mode).2 ≠ FatResult.success) :
    (state_reload_content env st0 mode).1.metadata = st0.metadata.dropLast
    ∧ (state_reload_content env st0 mode).1.content
        = (reload_render env st0.filepath mode).1
    ∧ (state_reload_content env st0 mode).1.search_term_active = st0.search_term_active
    ∧ (state_reload_content env st0 mode).1.search_results = st0.search_results
    ∧ (state_reload_content env st0 mode).1.top_line = st0.top_line
    ∧ (state_reload_content env st0 mode).1.left_char = st0.left_char
    ∧ (state_reload_content env st0 mode).1.view_mode = mode
    ∧ (state_reload_content env st0 mode).1.breadcrumbs = st0.breadcrumbs
    ∧ (state_reload_content env st0 mode).1.filepath = st0.filepath := by
  revert h
  unfold state_reload_content
  dsimp only
  split
  · intro _
    exact ⟨rfl, rfl, rfl, rfl, rfl, rfl, rfl, rfl, rfl⟩
  · intro h
    exact absurd rfl h

theorem state_reload_content_success_fields (env : LoadEnv) (st0 : AppState)
    (mode : ViewMode) (h : (state_reload_content env st0 mode).2 = FatResult.success) :
    (state_reload_content env st0 mode).1.top_line = 0
    ∧ (state_reload_content env st0 mode).1.left_char = 0
    ∧ (state_reload_content env st0 mode).1.search_term_active = false
    ∧ (state_reload_content env st0 mode).1.view_mode = mode
    ∧ (state_reload_content env st0 mode).1.content
        = (reload_render env st0.filepath mode).1
    ∧ (state_reload_content env st0 mode).1.breadcrumbs = st0.breadcrumbs
    ∧ (state_reload_content env st0 mode).1.filepath = st0.filepath
    ∧ (state_reload_content env st0 mode).1.search_results = st0.search_results
    ∧ (state_reload_content env st0 mode).1.metadata
        = st0.metadata.dropLast
            ++ ["Lines: " ++ toString (reload_render env st0.filepath mode).1.length] := by
  revert h
  unfold state_reload_content
  dsimp only
  split
  · rename_i hrend
    intro h
    exact absurd h hrend
  · intro _
    exact ⟨rfl, rfl, rfl, rfl, rfl, rfl, rfl, rfl, rfl⟩

theorem topPath_of_ne_nil {bc : List String} (h : bc ≠ []) :
    bc.getLast? = some (topPath bc) := by
  unfold topPath
  cases hx : bc.getLast? with
  | none => exact absurd (List.getLast?_eq_none_iff.mp hx) h
  | some a => rfl

theorem action_go_back_pop (env : LoadEnv) (st : AppState)
    (h : st.breadcrumbs.length > 1) :
    action_go_back env st
      = ((state_init env { st with breadcrumbs := st.breadcrumbs.dropLast }
            (topPath st.breadcrumbs.dropLast)).1,
         (state_init env { st with breadcrumbs := st.breadcrumbs.dropLast }
            (topPath st.breadcrumbs.dropLast)).2,
         if is_temp_file_path (topPath st.breadcrumbs) then
           some (topPath st.breadcrumbs)
         else none) := by
  unfold action_go_back
  rw [if_pos h]

theorem action_go_back_noop_fields (env : LoadEnv) (st : AppState)
    (h : ¬ st.breadcrumbs.length > 1) :
    (action_go_back env st).1.breadcrumbs = st.breadcrumbs
    ∧ (action_go_back env st).2.1 = FatResult.success
    ∧ (action_go_back env st).2.2 = none := by
  unfold action_go_back
  rw [if_neg h]
  by_cases ha : st.search_term_active <;> simp [ha]

theorem state_reload_content_frame (env : LoadEnv) (st0 : AppState) (mode : ViewMode) :
    (state_reload_content env st0 mode).1.breadcrumbs = st0.breadcrumbs
    ∧ (state_reload_content env st0 mode).1.filepath = st0.filepath := by
  by_cases h : (state_reload_content env st0 mode).2 = FatResult.success
  · have s := state_reload_content_success_fields env st0 mode h
    exact ⟨s.2.2.2.2.2.1, s.2.2.2.2.2.2.1⟩
  · have f := state_reload_content_fail_fields env st0 mode h
    exact ⟨f.2.2.2.2.2.2.2.1, f.2.2.2.2.2.2.2.2⟩

/-- Claim C2 (amended): a failed load through state_init always tears the
view down fully - metadata and content stores emptied, search state
cleared, result array freed and the path released - while a failed reload
through state_reload_content returns at once with the view only partially
torn down: the metadata has lost its trailing count line, the content
store holds whatever the failed render left behind, the view mode is
already switched, and the scroll position and search state are untouched
rather than cleared. -/
theorem claim_C2_load_failure_rollback :
    (∀ (env : LoadEnv) (st : AppState) (p : String),
        (state_init env st p).2 ≠ FatResult.success →
        (state_init env st p).1.metadata = []
        ∧ (state_init env st p).1.content = []
        ∧ (state_init env st p).1.search_term_active = false
        ∧ (state_init env st p).1.search_results = ⟨[], 0, 0⟩
        ∧ (state_init env st p).1.filepath = none)
    ∧ (∀ (env : LoadEnv) (st : AppState) (mode : ViewMode),
        (state_reload_content env st mode).2 ≠ FatResult.success →
        (state_reload_content env st mode).1.metadata = st.metadata.dropLast
        ∧ (state_reload_content env st mode).1.content
            = (reload_render env st.filepath mode).1
        ∧ (state_reload_content env st mode).1.search_term_active
            = st.search_term_active
        ∧ (state_reload_content env st mode).1.search_results = st.search_results
        ∧ (state_reload_content env st mode).1.top_line = st.top_line
        ∧ (state_reload_content env st mode).1.view_mode = mode) :=
  ⟨fun env st p h => state_init_fail_fields env st p h,
   fun env st mode h =>
     have f := state_reload_content_fail_fields env st mode h
     ⟨f.1, f.2.1, f.2.2.1, f.2.2.2.1, f.2.2.2.2.1, f.2.2.2.2.2.2.1⟩⟩

/-- Witness for claim C2: a load whose stat fails leaves a fully destroyed
view. -/
theorem claim_C2_load_failure_rollback_witness :
    (state_init envInfoFail baseState "f").1.metadata = []
    ∧ (state_init envInfoFail baseState "f").1.content = []
    ∧ (state_init envInfoFail baseState "f").1.search_term_active = false
    ∧ (state_init envInfoFail baseState "f").1.search_results = ⟨[], 0, 0⟩
    ∧ (state_init envInfoFail baseState "f").1.filepath = none :=
  claim_C2_load_failure_rollback.1 envInfoFail baseState "f" (by decide)

/-- Counterexample to claim C2 as stated: a reload that fails mid-render
does not tear the view down - the search stays active, the metadata store
is not freed (it only lost its count line) and the content store holds the
partially read line. -/
theorem claim_C2_counterexample :
    (state_reload_content envReadFail stLoaded ViewMode.normal).2 ≠ FatResult.success
    ∧ (state_reload_content envReadFail stLoaded ViewMode.normal).1.search_term_active
        = true
    ∧ (state_reload_content envReadFail stLoaded ViewMode.normal).1.metadata ≠ []
    ∧ (state_reload_content envReadFail stLoaded ViewMode.normal).1.content ≠ [] := by
  decide

/-- Claim C4: go-back with more than one breadcrumb deletes the popped top
entry from disk exactly when it carries the temp-file marker, pops it and
reloads the new top path; with a single breadcrumb and an active search it
clears the term and frees the result set; with a single breadcrumb and no
active search the state is returned unchanged. -/
theorem claim_C4_go_back :
    (∀ (env : LoadEnv) (st : AppState), st.breadcrumbs.length > 1 →
        (action_go_back env st).2.2
          = (if is_temp_file_path (topPath st.breadcrumbs) then
               some (topPath st.breadcrumbs) else none)
        ∧ (action_go_back env st).1.breadcrumbs = st.breadcrumbs.dropLast
        ∧ ((action_go_back env st).2.1 = FatResult.success →
            (action_go_back env st).1.filepath
              = some (topPath st.breadcrumbs.dropLast)))
    ∧ (∀ (env : LoadEnv) (st : AppState), st.breadcrumbs.length = 1 →
        st.search_term_active = true →
        action_go_back env st
          = ({ st with search_term := [], search_term_active := false,
                       search_results := ⟨[], 0, st.search_results.current_match_idx⟩ },
             FatResult.success, none))
    ∧ (∀ (env : LoadEnv) (st : AppState), st.breadcrumbs.length = 1 →
        st.search_term_active = false →
        action_go_back env st = (st, FatResult.success, none)) := by
  refine ⟨fun env st h => ?_, fun env st h ha => ?_, fun env st h ha => ?_⟩
  · rw [action_go_back_pop env st h]
    have hne : st.breadcrumbs.dropLast ≠ [] := by
      have hlen := List.length_dropLast st.breadcrumbs
      intro hx
      rw [hx] at hlen
      simp at hlen
      omega
    refine ⟨rfl, ?_, ?_⟩
    · rw [state_init_breadcrumbs env { st with breadcrumbs := st.breadcrumbs.dropLast }
            (topPath st.breadcrumbs.dropLast),
          (state_init_view_setup_fields { st with breadcrumbs := st.breadcrumbs.dropLast }
            (topPath st.breadcrumbs.dropLast)).2.1,
          if_neg (fun hcon => hcon (topPath_of_ne_nil hne))]
    · intro hs
      exact (state_init_success_fields env _ _ hs).1
  · unfold action_go_back
    rw [if_neg (by omega), if_pos ha]
  · unfold action_go_back
    rw [if_neg (by omega), if_neg (by rw [ha]; exact Bool.false_ne_true)]

/-- Witness for claim C4: go-back on a single-breadcrumb state with an
active search clears the search and nothing else. -/
theorem claim_C4_go_back_witness :
    action_go_back envOk stLoaded
      = ({ stLoaded with search_term := [], search_term_active := false,
                         search_results := ⟨[], 0, stLoaded.search_results.current_match_idx⟩ },
         FatResult.success, none) :=
  claim_C4_go_back.2.1 envOk stLoaded (by decide) (by decide)

/-- Claim C5: toggling the view mode flips only between the text and hex
views, re-rendering the content store for the same underlying file; it
resets the scroll cursor to the origin and deactivates the search, and it
never changes the breadcrumb stack or the stored file path; in the archive
view the toggle does nothing. -/
theorem claim_C5_toggle_view_mode :
    ∀ (env : LoadEnv) (st : AppState),
      ((action_toggle_view_mode env st).1.breadcrumbs = st.breadcrumbs
        ∧ (action_toggle_view_mode env st).1.filepath = st.filepath)
      ∧ (st.view_mode = ViewMode.normal →
          (action_toggle_view_mode env st).2 = FatResult.success →
          (action_toggle_view_mode env st).1.view_mode = ViewMode.binaryHex
          ∧ (action_toggle_view_mode env st).1.content
              = (env.hex_dump (st.filepath.getD "")).1
          ∧ (action_toggle_view_mode env st).1.top_line = 0
          ∧ (action_toggle_view_mode env st).1.left_char = 0
          ∧ (action_toggle_view_mode env st).1.search_term_active = false)
      ∧ (st.view_mode = ViewMode.binaryHex →
          (action_toggle_view_mode env st).2 = FatResult.success →
          (action_toggle_view_mode env st).1.view_mode = ViewMode.normal
          ∧ (action_toggle_view_mode env st).1.content
              = (env.read_file (st.filepath.getD "")).1
          ∧ (action_toggle_view_mode env st).1.top_line = 0
          ∧ (action_toggle_view_mode env st).1.left_char = 0
          ∧ (action_toggle_view_mode env st).1.search_term_active = false)
      ∧ (st.view_mode = ViewMode.archive →
          action_toggle_view_mode env st = (st, FatResult.success)) := by
  intro env st
  cases hv : st.view_mode with
  | normal =>
    have ht : action_toggle_view_mode env st
        = state_reload_content env st ViewMode.binaryHex := by
      unfold action_toggle_view_mode
      rw [hv]
    rw [ht]
    refine ⟨state_reload_content_frame env st ViewMode.binaryHex, fun _ hs => ?_,
            fun hx => absurd hx (by decide), fun hx => absurd hx (by decide)⟩
    have s := state_reload_content_success_fields env st ViewMode.binaryHex hs
    exact ⟨s.2.2.2.1, s.2.2.2.2.1, s.1, s.2.1, s.2.2.1⟩
  | binaryHex =>
    have ht : action_toggle_view_mode env st
        = state_reload_content env st ViewMode.normal := by
      unfold action_toggle_view_mode
      rw [hv]
    rw [ht]
    refine ⟨state_reload_content_frame env st ViewMode.normal,
            fun hx => absurd hx (by decide), fun _ hs => ?_,
            fun hx => absurd hx (by decide)⟩
    have s := state_reload_content_success_fields env st ViewMode.normal hs
    exact ⟨s.2.2.2.1, s.2.2.2.2.1, s.1, s.2.1, s.2.2.1⟩
  | archive =>
    have ht : action_toggle_view_mode env st = (st, FatResult.success) := by
      unfold action_toggle_view_mode
      rw [hv]
    rw [ht]
    exact ⟨⟨rfl, rfl⟩, fun hx => absurd hx (by decide),
           fun hx => absurd hx (by decide), fun _ => rfl⟩

/-- Witness for claim C5: a successful toggle from the text view flips to
the hex view, resets the cursor and search, and re-renders through the hex
dump of the same path. -/
theorem claim_C5_toggle_view_mode_witness :
    (action_toggle_view_mode envOk stLoaded).1.view_mode = ViewMode.binaryHex
    ∧ (action_toggle_view_mode envOk stLoaded).1.content
        = (envOk.hex_dump (stLoaded.filepath.getD "")).1
    ∧ (action_toggle_view_mode envOk stLoaded).1.top_line = 0
    ∧ (action_toggle_view_mode envOk stLoaded).1.left_char = 0
    ∧ (action_toggle_view_mode envOk stLoaded).1.search_term_active = false :=
  (claim_C5_toggle_view_mode envOk stLoaded).2.1 (by decide) (by decide)

set_option maxRecDepth 4000 in
theorem byte_two_mask : ∀ b : Nat, b < 0xE0 → 0xC0 ≤ b → b &&& 0xE0 = 0xC0 := by
  decide

set_option maxRecDepth 4000 in
theorem byte_three_mask : ∀ b : Nat, b < 0xF0 → 0xE0 ≤ b →
    (¬ b &&& 0xE0 = 0xC0 ∧ b &&& 0xF0 = 0xE0) := by
  decide

set_option maxRecDepth 4000 in
theorem byte_four_mask : ∀ b : Nat, b < 0xF8 → 0xF0 ≤ b →
    (¬ b &&& 0xE0 = 0xC0 ∧ ¬ b &&& 0xF0 = 0xE0 ∧ b &&& 0xF8 = 0xF0) := by
  decide

set_option maxRecDepth 4000 in
theorem byte_cont_mask : ∀ c : Nat, c < 0x100 →
    ((c &&& 0xC0 = 0x80) ↔ (0x80 ≤ c ∧ c < 0xC0)) := by
  decide

theorem char_len_one {b : Nat} (rest : List Nat) (h1 : 0 < b) (h2 : b < 0x80) :
    utf8_char_len (b :: rest) = 1 := by
  simp only [utf8_char_len]
  rw [if_neg (by omega), if_pos h2]

theorem char_len_two {b : Nat} (c : Nat) (rest : List Nat) (h1 : 0xC0 ≤ b) (h2 : b < 0xE0) :
    utf8_char_len (b :: c :: rest) = 2 := by
  simp only [utf8_char_len]
  rw [if_neg (by omega), if_neg (by omega), if_pos (byte_two_mask b h2 h1)]

theorem char_len_three {b : Nat} (c d : Nat) (rest : List Nat)
    (h1 : 0xE0 ≤ b) (h2 : b < 0xF0) :
    utf8_char_len (b :: c :: d :: rest) = 3 := by
  simp only [utf8_char_len]
  rw [if_neg (by omega), if_neg (by omega), if_neg (byte_three_mask b h2 h1).1,
      if_pos (byte_three_mask b h2 h1).2]

theorem char_len_four {b : Nat} (c d e : Nat) (rest : List Nat)
    (h1 : 0xF0 ≤ b) (h2 : b < 0xF8) :
    utf8_char_len (b :: c :: d :: e :: rest) = 4 := by
  simp only [utf8_char_len]
  rw [if_neg (by omega), if_neg (by omega), if_neg (byte_four_mask b h2 h1).1,
      if_neg (byte_four_mask b h2 h1).2.1, if_pos (byte_four_mask b h2 h1).2.2]

theorem valid_head_not_cont {b : Nat} {l : List Nat} (h : Utf8Valid (b :: l)) :
    ¬ IsContByte b := by
  cases h with
  | one h1 h2 _ => intro hc; obtain ⟨hc1, hc2⟩ := hc; omega
  | two h1 h2 _ _ => intro hc; obtain ⟨hc1, hc2⟩ := hc; omega
  | three h1 h2 _ _ _ => intro hc; obtain ⟨hc1, hc2⟩ := hc; omega
  | four h1 h2 _ _ _ _ => intro hc; obtain ⟨hc1, hc2⟩ := hc; omega

theorem valid_getD_lt {l : List Nat} (h : Utf8Valid l) : ∀ q : Nat, l.getD q 0 < 0x100 := by
  induction h with
  | nil =>
    intro q
    simp [List.getD]
  | @one b rest h1 h2 _ ih =>
    intro q
    match q with
    | 0 => simp only [List.getD_cons_zero]; omega
    | q' + 1 => simp only [List.getD_cons_succ]; exact ih q'
  | @two b c rest h1 h2 hc _ ih =>
    intro q
    obtain ⟨hc1, hc2⟩ := hc
    match q with
    | 0 => simp only [List.getD_cons_zero]; omega
    | 1 => simp only [List.getD_cons_succ, List.getD_cons_zero]; omega
    | q' + 2 => simp only [List.getD_cons_succ]; exact ih q'
  | @three b c d rest h1 h2 hc hd _ ih =>
    intro q
    obtain ⟨hc1, hc2⟩ := hc
    obtain ⟨hd1, hd2⟩ := hd
    match q with
    | 0 => simp only [List.getD_cons_zero]; omega
    | 1 => simp only [List.getD_cons_succ, List.getD_cons_zero]; omega
    | 2 => simp only [List.getD_cons_succ, List.getD_cons_zero]; omega
    | q' + 3 => simp only [List.getD_cons_succ]; exact ih q'
  | @four b c d e rest h1 h2 hc hd he _ ih =>
    intro q
    obtain ⟨hc1, hc2⟩ := hc
    obtain ⟨hd1, hd2⟩ := hd
    obtain ⟨he1, he2⟩ := he
    match q with
    | 0 => simp only [List.getD_cons_zero]; omega
    | 1 => simp only [List.getD_cons_succ, List.getD_cons_zero]; omega
    | 2 => simp only [List.getD_cons_succ, List.getD_cons_zero]; omega
    | 3 => simp only [List.getD_cons_succ, List.getD_cons_zero]; omega
    | q' + 4 => simp only [List.getD_cons_succ]; exact ih q'

theorem utf8_char_step {l : List Nat} (h : Utf8Valid l) (hne : l ≠ []) :
    1 ≤ utf8_char_len l ∧ utf8_char_len l ≤ l.length
    ∧ Utf8Valid (l.drop (utf8_char_len l))
    ∧ ∀ j, 0 < j → j < utf8_char_len l → IsContByte (l.getD j 0) := by
  cases h with
  | nil => exact absurd rfl hne
  | @one b rest h1 h2 hrest =>
    rw [char_len_one rest h1 h2]
    exact ⟨le_refl 1, by simp, hrest, fun j hj1 hj2 => absurd hj2 (by omega)⟩
  | @two b c rest h1 h2 hc hrest =>
    rw [char_len_two c rest h1 h2]
    refine ⟨by omega, by simp, hrest, fun j hj1 hj2 => ?_⟩
    have : j = 1 := by omega
    rw [this]
    simpa using hc
  | @three b c d rest h1 h2 hc hd hrest =>
    rw [char_len_three c d rest h1 h2]
    refine ⟨by omega, by simp, hrest, fun j hj1 hj2 => ?_⟩
    match j, hj1, hj2 with
    | 1, _, _ => simpa using hc
    | 2, _, _ => simpa using hd
  | @four b c d e rest h1 h2 hc hd he hrest =>
    rw [char_len_four c d e rest h1 h2]
    refine ⟨by omega, by simp, hrest, fun j hj1 hj2 => ?_⟩
    match j, hj1, hj2 with
    | 1, _, _ => simpa using hc
    | 2, _, _ => simpa using hd
    | 3, _, _ => simpa using he

theorem utf8_boundary_char {l : List Nat} (h : Utf8Valid l) :
    ∀ q, q < l.length → (Utf8Valid (l.drop q) ↔ ¬ IsContByte (l.getD q 0)) := by
  induction h with
  | nil =>
    intro q hq
    simp at hq
  | @one b rest h1 h2 hrest ih =>
    intro q hq
    match q with
    | 0 =>
      simp only [List.drop_zero, List.getD_cons_zero]
      exact iff_of_true (Utf8Valid.one h1 h2 hrest) (fun hc => by obtain ⟨a, _⟩ := hc; omega)
    | q' + 1 =>
      simp only [List.drop_succ_cons, List.getD_cons_succ]
      exact ih q' (by simpa using hq)
  | @two b c rest h1 h2 hc hrest ih =>
    intro q hq
    match q with
    | 0 =>
      simp only [List.drop_zero, List.getD_cons_zero]
      exact iff_of_true (Utf8Valid.two h1 h2 hc hrest) (fun hx => by obtain ⟨a, _⟩ := hx; omega)
    | 1 =>
      simp only [List.drop_succ_cons, List.drop_zero, List.getD_cons_succ,
        List.getD_cons_zero]
      exact iff_of_false (fun hv => valid_head_not_cont hv hc) (fun hnc => hnc hc)
    | q' + 2 =>
      simp only [List.drop_succ_cons, List.getD_cons_succ]
      exact ih q' (by simp only [List.length_cons] at hq; omega)
  | @three b c d rest h1 h2 hc hd hrest ih =>
    intro q hq
    match q with
    | 0 =>
      simp only [List.drop_zero, List.getD_cons_zero]
      exact iff_of_true (Utf8Valid.three h1 h2 hc hd hrest)
        (fun hx => by obtain ⟨a, _⟩ := hx; omega)
    | 1 =>
      simp only [List.drop_succ_cons, List.drop_zero, List.getD_cons_succ,
        List.getD_cons_zero]
      exact iff_of_false (fun hv => valid_head_not_cont hv hc) (fun hnc => hnc hc)
    | 2 =>
      simp only [List.drop_succ_cons, List.drop_zero, List.getD_cons_succ,
        List.getD_cons_zero]
      exact iff_of_false (fun hv => valid_head_not_cont hv hd) (fun hnc => hnc hd)
    | q' + 3 =>
      simp only [List.drop_succ_cons, List.getD_cons_succ]
      exact ih q' (by simp only [List.length_cons] at hq; omega)
  | @four b c d e rest h1 h2 hc hd he hrest ih =>
    intro q hq
    match q with
    | 0 =>
      simp only [List.drop_zero, List.getD_cons_zero]
      exact iff_of_true (Utf8Valid.four h1 h2 hc hd he hrest)
        (fun hx => by obtain ⟨a, _⟩ := hx; omega)
    | 1 =>
      simp only [List.drop_succ_cons, List.drop_zero, List.getD_cons_succ,
        List.getD_cons_zero]
      exact iff_of_false (fun hv => valid_head_not_cont hv hc) (fun hnc => hnc hc)
    | 2 =>
      simp only [List.drop_succ_cons, List.drop_zero, List.getD_cons_succ,
        List.getD_cons_zero]
      exact iff_of_false (fun hv => valid_head_not_cont hv hd) (fun hnc => hnc hd)
    | 3 =>
      simp only [List.drop_succ_cons, List.drop_zero, List.getD_cons_succ,
        List.getD_cons_zero]
      exact iff_of_false (fun hv => valid_head_not_cont hv he) (fun hnc => hnc he)
    | q' + 4 =>
      simp only [List.drop_succ_cons, List.getD_cons_succ]
      exact ih q' (by simp only [List.length_cons] at hq; omega)

theorem utf8_boundary_bits {l : List Nat} (h : Utf8Valid l) {q : Nat} (hq : q < l.length) :
    Utf8Valid (l.drop q) ↔ ¬ ((l.getD q 0) &&& 0xC0 = 0x80) := by
  rw [utf8_boundary_char h q hq]
  exact not_congr (byte_cont_mask _ (valid_getD_lt h q)).symm

theorem scan_back_spec (s : List Nat) : ∀ pos : Nat,
    utf8_scan_back s pos ≤ pos
    ∧ (utf8_scan_back s pos = 0
        ∨ ¬ ((s.getD (utf8_scan_back s pos) 0) &&& 0xC0 = 0x80))
    ∧ ∀ q, utf8_scan_back s pos < q → q ≤ pos → (s.getD q 0) &&& 0xC0 = 0x80
  | 0 => ⟨le_refl 0, Or.inl rfl, fun _ h1 h2 => absurd h2 (by omega)⟩
  | pos + 1 => by
    obtain ⟨ih1, ih2, ih3⟩ := scan_back_spec s pos
    unfold utf8_scan_back
    by_cases hc : (s.getD (pos + 1) 0) &&& 0xC0 = 0x80
    · rw [if_pos hc]
      refine ⟨by omega, ih2, fun q h1 h2 => ?_⟩
      rcases Nat.lt_or_ge q (pos + 1) with hlt | hge
      · exact ih3 q h1 (by omega)
      · have hq : q = pos + 1 := by omega
        rw [hq]
        exact hc
    · rw [if_neg hc]
      exact ⟨le_refl _, Or.inr hc, fun _ h1 h2 => absurd h2 (by omega)⟩

theorem utf8_prev_boundary {line : List Nat} (h : Utf8Valid line) {p : Nat}
    (hb : Utf8Boundary line p) (hp : 0 < p) :
    Utf8Boundary line (utf8_prev_char_start line p)
    ∧ utf8_prev_char_start line p < p
    ∧ ∀ q, utf8_prev_char_start line p < q → q < p → ¬ Utf8Boundary line q := by
  obtain ⟨hple, _⟩ := hb
  unfold utf8_prev_char_start
  rw [if_neg (by omega)]
  obtain ⟨s1, s2, s3⟩ := scan_back_spec line (p - 1)
  refine ⟨?_, by omega, ?_⟩
  · rcases s2 with h0 | hnb
    · rw [h0]
      exact ⟨Nat.zero_le _, h⟩
    · have hrlt : utf8_scan_back line (p - 1) < line.length := by omega
      exact ⟨by omega, (utf8_boundary_bits h hrlt).mpr hnb⟩
  · intro q hq1 hq2 hbq
    have hqlt : q < line.length := by omega
    exact (utf8_boundary_bits h hqlt).mp hbq.2 (s3 q hq1 (by omega))

theorem utf8_next_boundary {line : List Nat} (h : Utf8Valid line) {p : Nat}
    (hb : Utf8Boundary line p) (hp : p < line.length) :
    Utf8Boundary line (p + utf8_char_len (line.drop p)) := by
  obtain ⟨hple, hval⟩ := hb
  have hne : line.drop p ≠ [] := by
    intro hx
    have hlen := List.length_drop p line
    rw [hx] at hlen
    simp at hlen
    omega
  obtain ⟨c1, c2, c3, _⟩ := utf8_char_step hval hne
  rw [List.length_drop] at c2
  constructor
  · omega
  · have hdd : (line.drop p).drop (utf8_char_len (line.drop p))
        = line.drop (p + utf8_char_len (line.drop p)) := by
      rw [List.drop_drop]
    rw [← hdd]
    exact c3

theorem scroll_step_boundary {line : List Nat} (h : Utf8Valid line)
    (wrap : Bool) (maxScroll : Nat) {p : Nat} (hb : Utf8Boundary line p)
    (a : ScrollAct) : Utf8Boundary line (scroll_step wrap maxScroll line p a) := by
  cases a with
  | right =>
    unfold scroll_step action_scroll_right
    by_cases hg : ¬ wrap = true ∧ p < maxScroll
    · rw [if_pos hg]
      by_cases hl : p < line.length
      · rw [if_pos hl]
        exact utf8_next_boundary h hb hl
      · rw [if_neg hl]
        exact hb
    · rw [if_neg hg]
      exact hb
  | left =>
    unfold scroll_step action_scroll_left
    by_cases hg : ¬ wrap = true ∧ p > 0
    · rw [if_pos hg]
      exact (utf8_prev_boundary h hb hg.2).1
    · rw [if_neg hg]
      exact hb

theorem scroll_run_boundary {line : List Nat} (h : Utf8Valid line)
    (wrap : Bool) (maxScroll : Nat) :
    ∀ (acts : List ScrollAct) (p : Nat), Utf8Boundary line p →
      Utf8Boundary line (scroll_run wrap maxScroll line p acts)
  | [], _, hb => hb
  | a :: acts, p, hb => by
    have hstep := scroll_step_boundary h wrap maxScroll hb a
    have hrun : scroll_run wrap maxScroll line p (a :: acts)
        = scroll_run wrap maxScroll line (scroll_step wrap maxScroll line p a) acts := by
      unfold scroll_run
      rw [List.foldl_cons]
    rw [hrun]
    exact scroll_run_boundary h wrap maxScroll acts _ hstep

theorem nav_step_load (env : LoadEnv) (t : NavTrace) (p : String) :
    nav_step env t (NavEvent.load p)
      = { st := (state_init env t.st p).1, lastAttempt := some p,
          lastLoaded := if (state_init env t.st p).2 = FatResult.success then some p
                        else t.lastLoaded,
          allOk := t.allOk
            && decide ((state_init env t.st p).2 = FatResult.success) } := rfl

theorem nav_step_goBack_pop (env : LoadEnv) (t : NavTrace)
    (h : t.st.breadcrumbs.length > 1) :
    nav_step env t NavEvent.goBack
      = { st := (action_go_back env t.st).1,
          lastAttempt := some (topPath t.st.breadcrumbs.dropLast),
          lastLoaded := if (action_go_back env t.st).2.1 = FatResult.success then
                          some (topPath t.st.breadcrumbs.dropLast)
                        else t.lastLoaded,
          allOk := t.allOk
            && decide ((action_go_back env t.st).2.1 = FatResult.success) } := by
  unfold nav_step
  dsimp only
  rw [if_pos h]

theorem nav_step_goBack_noop (env : LoadEnv) (t : NavTrace)
    (h : ¬ t.st.breadcrumbs.length > 1) :
    nav_step env t NavEvent.goBack = { t with st := (action_go_back env t.st).1 } := by
  unfold nav_step
  dsimp only
  rw [if_neg h]

theorem action_go_back_top (env : LoadEnv) (st : AppState)
    (h : st.breadcrumbs.length > 1) :
    (action_go_back env st).1.breadcrumbs.getLast?
      = some (topPath st.breadcrumbs.dropLast) := by
  rw [action_go_back_pop env st h]
  exact state_init_top env _ _

theorem nav_step_inv (env : LoadEnv) (t : NavTrace) (e : NavEvent)
    (h1 : t.lastAttempt ≠ none → t.st.breadcrumbs.getLast? = t.lastAttempt)
    (h2 : t.allOk = true → t.lastLoaded = t.lastAttempt) :
    ((nav_step env t e).lastAttempt ≠ none →
      (nav_step env t e).st.breadcrumbs.getLast? = (nav_step env t e).lastAttempt)
    ∧ ((nav_step env t e).allOk = true →
      (nav_step env t e).lastLoaded = (nav_step env t e).lastAttempt) := by
  cases e with
  | load p =>
    rw [nav_step_load]
    constructor
    · intro _
      exact state_init_top env t.st p
    · intro hok
      simp only [Bool.and_eq_true, decide_eq_true_eq] at hok
      rw [if_pos hok.2]
  | goBack =>
    by_cases h : t.st.breadcrumbs.length > 1
    · rw [nav_step_goBack_pop env t h]
      constructor
      · intro _
        exact action_go_back_top env t.st h
      · intro hok
        simp only [Bool.and_eq_true, decide_eq_true_eq] at hok
        rw [if_pos hok.2]
    · rw [nav_step_goBack_noop env t h]
      constructor
      · intro ha
        rw [(action_go_back_noop_fields env t.st h).1]
        exact h1 ha
      · exact h2

/-- Claim C3 (amended): a load pushes its path only when it differs from
the current top (pushing the path already on top leaves the stack
unchanged); a navigation event never empties the stack; and after any
sequence of navigation events the top of the stack equals the path passed
to the most recent load attempt - which is the most recent successful load
whenever every load attempt in the sequence succeeded, but a failed load
leaves its own path on top. -/
theorem claim_C3_breadcrumb_invariant :
    (∀ (env : LoadEnv) (st : AppState) (p : String),
        st.breadcrumbs.getLast? = some p →
        (state_init env st p).1.breadcrumbs = st.breadcrumbs)
    ∧ (∀ (env : LoadEnv) (st : AppState) (p : String),
        st.breadcrumbs.getLast? ≠ some p →
        (state_init env st p).1.breadcrumbs = st.breadcrumbs ++ [p])
    ∧ (∀ (env : LoadEnv) (t : NavTrace) (e : NavEvent),
        t.st.breadcrumbs ≠ [] → (nav_step env t e).st.breadcrumbs ≠ [])
    ∧ (∀ (env : LoadEnv) (t : NavTrace) (evs : List NavEvent),
        (t.lastAttempt ≠ none → t.st.breadcrumbs.getLast? = t.lastAttempt) →
        (t.allOk = true → t.lastLoaded = t.lastAttempt) →
        ((nav_run env t evs).lastAttempt ≠ none →
          (nav_run env t evs).st.breadcrumbs.getLast? = (nav_run env t evs).lastAttempt)
        ∧ ((nav_run env t evs).allOk = true →
          (nav_run env t evs).lastLoaded = (nav_run env t evs).lastAttempt)) := by
  refine ⟨fun env st p h => ?_, fun env st p h => ?_, fun env t e h => ?_, ?_⟩
  · rw [state_init_breadcrumbs env st p, (state_init_view_setup_fields st p).2.1,
        if_neg (fun hc => hc h)]
  · rw [state_init_breadcrumbs env st p, (state_init_view_setup_fields st p).2.1,
        if_pos h]
  · cases e with
    | load p =>
      have hst : (nav_step env t (NavEvent.load p)).st = (state_init env t.st p).1 := rfl
      rw [hst]
      intro hx
      have htop := state_init_top env t.st p
      rw [hx] at htop
      exact Option.noConfusion htop
    | goBack =>
      have hst : (nav_step env t NavEvent.goBack).st = (action_go_back env t.st).1 := by
        unfold nav_step
        dsimp only
        split <;> rfl
      rw [hst]
      by_cases hl : t.st.breadcrumbs.length > 1
      · intro hx
        have htop := action_go_back_top env t.st hl
        rw [hx] at htop
        exact Option.noConfusion htop
      · rw [(action_go_back_noop_fields env t.st hl).1]
        exact h
  · intro env t evs
    induction evs generalizing t with
    | nil => exact fun h1 h2 => ⟨h1, h2⟩
    | cons e evs ih =>
      intro h1 h2
      have hstep := nav_step_inv env t e h1 h2
      exact ih (nav_step env t e) hstep.1 hstep.2

/-- Witness for claim C3: a single successful load in a fresh trace leaves
its path both on top of the stack and recorded as the last attempt and the
last success. -/
theorem claim_C3_breadcrumb_invariant_witness :
    ((nav_run envOk ⟨baseState, none, none, true⟩ [NavEvent.load "a"]).lastAttempt ≠ none →
      (nav_run envOk ⟨baseState, none, none, true⟩ [NavEvent.load "a"]).st.breadcrumbs.getLast?
        = (nav_run envOk ⟨baseState, none, none, true⟩ [NavEvent.load "a"]).lastAttempt)
    ∧ ((nav_run envOk ⟨baseState, none, none, true⟩ [NavEvent.load "a"]).allOk = true →
      (nav_run envOk ⟨baseState, none, none, true⟩ [NavEvent.load "a"]).lastLoaded
        = (nav_run envOk ⟨baseState, none, none, true⟩ [NavEvent.load "a"]).lastAttempt) :=
  claim_C3_breadcrumb_invariant.2.2.2 envOk ⟨baseState, none, none, true⟩
    [NavEvent.load "a"] (fun h => absurd rfl h) (fun _ => rfl)

/-- Counterexample to claim C3 as stated: after a successful load of a
followed by a failed load of b, the failed path b sits on top of the
breadcrumb stack while the most recent successful load is a. -/
theorem claim_C3_counterexample :
    (nav_run envBFails ⟨baseState, none, none, true⟩
        [NavEvent.load "a", NavEvent.load "b"]).st.breadcrumbs.getLast? = some "b"
    ∧ (nav_run envBFails ⟨baseState, none, none, true⟩
        [NavEvent.load "a", NavEvent.load "b"]).lastLoaded = some "a"
    ∧ (nav_run envBFails ⟨baseState, none, none, true⟩
        [NavEvent.load "a", NavEvent.load "b"]).st.breadcrumbs.getLast?
      ≠ (nav_run envBFails ⟨baseState, none, none, true⟩
        [NavEvent.load "a", NavEvent.load "b"]).lastLoaded := by
  decide

/-- Claim C1: view classification is deterministic and total with the
documented priority: it is a function into the three view modes;
ForceText gives Text and ForceHex gives BinaryHex; otherwise the first
registered plugin accepting the path gives Archive; otherwise an exact
match in the text-MIME list gives Text, an exact match in the binary-MIME
list gives BinaryHex, and absent an override a MIME type under
application/ (except exactly application/json), image/ or video/ gives
BinaryHex while everything else, including a failed MIME lookup, gives
Text. -/
theorem claim_C1_classifier_priority :
    ∀ (force : ForceViewMode) (plugins : List ArchivePlugin) (config : AppConfig)
      (mime : Option String) (path : String),
      (classify force plugins config mime path = ViewMode.normal
        ∨ classify force plugins config mime path = ViewMode.archive
        ∨ classify force plugins config mime path = ViewMode.binaryHex)
      ∧ (force = ForceViewMode.fvText →
          classify force plugins config mime path = ViewMode.normal)
      ∧ (force = ForceViewMode.fvHex →
          classify force plugins config mime path = ViewMode.binaryHex)
      ∧ (∀ (pl : ArchivePlugin) (ps : List ArchivePlugin),
          pm_get_handler (pl :: ps) path
            = if pl.can_handle path then some pl else pm_get_handler ps path)
      ∧ (force = ForceViewMode.fvNone → (∃ pl ∈ plugins, pl.can_handle path) →
          classify force plugins config mime path = ViewMode.archive)
      ∧ (force = ForceViewMode.fvNone → (∀ pl ∈ plugins, ¬ pl.can_handle path) →
          (mime = none → classify force plugins config mime path = ViewMode.normal)
          ∧ ∀ m : String, mime = some m →
              (m ∈ config.text_mimes →
                classify force plugins config mime path = ViewMode.normal)
              ∧ (m ∉ config.text_mimes → m ∈ config.binary_mimes →
                classify force plugins config mime path = ViewMode.binaryHex)
              ∧ (m ∉ config.text_mimes → m ∉ config.binary_mimes →
                  ((str_starts_with "application/" m = true ∧ m ≠ "application/json")
                      ∨ str_starts_with "image/" m = true
                      ∨ str_starts_with "video/" m = true →
                    classify force plugins config mime path = ViewMode.binaryHex)
                  ∧ (¬ ((str_starts_with "application/" m = true ∧ m ≠ "application/json")
                        ∨ str_starts_with "image/" m = true
                        ∨ str_starts_with "video/" m = true) →
                    classify force plugins config mime path = ViewMode.normal))) := by
  intro force plugins config mime path
  refine ⟨?_, ?_, ?_, ?_, ?_, ?_⟩
  · cases h : classify force plugins config mime path
    · exact Or.inl rfl
    · exact Or.inr (Or.inl rfl)
    · exact Or.inr (Or.inr rfl)
  · rintro rfl
    rfl
  · rintro rfl
    rfl
  · intro pl ps
    by_cases h : pl.can_handle path <;> simp [pm_get_handler, List.find?, h]
  · rintro rfl hex
    obtain ⟨pl, hmem, hcan⟩ := hex
    unfold classify
    cases hh : pm_get_handler plugins path with
    | some _ => rfl
    | none =>
      rw [pm_get_handler, List.find?_eq_none] at hh
      exact absurd hcan (hh pl hmem)
  · rintro rfl hnone
    have hh : pm_get_handler plugins path = none := by
      rw [pm_get_handler, List.find?_eq_none]
      exact hnone
    constructor
    · rintro rfl
      simp [classify, hh, mimeIsBinary]
    · rintro m rfl
      have hbool : ((str_starts_with "application/" m && !(m == "application/json"))
            || str_starts_with "image/" m || str_starts_with "video/" m) = true
          ↔ ((str_starts_with "application/" m = true ∧ m ≠ "application/json")
              ∨ str_starts_with "image/" m = true
              ∨ str_starts_with "video/" m = true) := by
        simp only [Bool.or_eq_true, Bool.and_eq_true, Bool.not_eq_true',
          beq_eq_false_iff_ne, ne_eq]
        tauto
      refine ⟨fun hm => ?_, fun hm1 hm2 => ?_, fun hm1 hm2 => ?_⟩
      · have h1 : config.text_mimes.any (fun s => s == m) = true := any_beq_iff_mem.mpr hm
        simp [classify, hh, mimeIsBinary, h1]
      · have h1 : config.text_mimes.any (fun s => s == m) = false := by
          cases hx : config.text_mimes.any (fun s => s == m) with
          | false => rfl
          | true => exact absurd (any_beq_iff_mem.mp hx) hm1
        have h2 : config.binary_mimes.any (fun s => s == m) = true := any_beq_iff_mem.mpr hm2
        simp [classify, hh, mimeIsBinary, h1, h2]
      · have h1 : config.text_mimes.any (fun s => s == m) = false := by
          cases hx : config.text_mimes.any (fun s => s == m) with
          | false => rfl
          | true => exact absurd (any_beq_iff_mem.mp hx) hm1
        have h2 : config.binary_mimes.any (fun s => s == m) = false := by
          cases hx : config.binary_mimes.any (fun s => s == m) with
          | false => rfl
          | true => exact absurd (any_beq_iff_mem.mp hx) hm2
        constructor
        · intro hcase
          have hb := hbool.mpr hcase
          simp [classify, hh, mimeIsBinary, h1, h2, hb]
        · intro hcase
          have hb : ((str_starts_with "application/" m && !(m == "application/json"))
              || str_starts_with "image/" m || str_starts_with "video/" m) = false := by
            cases hx : ((str_starts_with "application/" m && !(m == "application/json"))
                || str_starts_with "image/" m || str_starts_with "video/" m) with
            | false => rfl
            | true => exact absurd (hbool.mp hx) hcase
          simp [classify, hh, mimeIsBinary, h1, h2, hb]

/-- Witness for claim C1: a path with MIME type application/pdf, no force
mode, no plugin claiming it and empty override lists classifies as the hex
view. -/
theorem claim_C1_classifier_priority_witness :
    classify ForceViewMode.fvNone [] ⟨[], []⟩ (some "application/pdf") "f.pdf"
      = ViewMode.binaryHex :=
  ((((claim_C1_classifier_priority ForceViewMode.fvNone [] ⟨[], []⟩
      (some "application/pdf") "f.pdf").2.2.2.2.2 rfl (by simp)).2
      "application/pdf" rfl).2.2 (by simp) (by simp)).1
    (Or.inl ⟨by decide, by decide⟩)

theorem sample_line_valid : Utf8Valid [97, 195, 169, 98] :=
  Utf8Valid.one (by decide) (by decide)
    (Utf8Valid.two (by decide) (by decide) (by decide)
      (Utf8Valid.one (by decide) (by decide) Utf8Valid.nil))

/-- Claim C9: on a valid UTF-8 line, the horizontal-scroll cursor always
sits on a character boundary: the zero offset is a boundary, every
sequence of scroll-left and scroll-right actions started at a boundary
lands on a boundary, a scroll-right inside the line and the scroll limit
advances by exactly the byte length of the character at the cursor, and a
scroll-left moves to the nearest character start at or before the previous
byte (a boundary, strictly before the cursor, with no boundary in
between). -/
theorem claim_C9_scroll_boundary_safety :
    ∀ line : List Nat, Utf8Valid line →
      Utf8Boundary line 0
      ∧ (∀ (wrap : Bool) (maxScroll p0 : Nat) (acts : List ScrollAct),
          Utf8Boundary line p0 →
          Utf8Boundary line (scroll_run wrap maxScroll line p0 acts))
      ∧ (∀ (maxScroll p : Nat), Utf8Boundary line p → p < maxScroll →
          p < line.length →
          action_scroll_right false maxScroll line p
            = p + utf8_char_len (line.drop p)
          ∧ Utf8Boundary line (p + utf8_char_len (line.drop p)))
      ∧ (∀ p : Nat, Utf8Boundary line p → 0 < p →
          action_scroll_left false line p = utf8_prev_char_start line p
          ∧ Utf8Boundary line (utf8_prev_char_start line p)
          ∧ utf8_prev_char_start line p < p
          ∧ ∀ q, utf8_prev_char_start line p < q → q < p →
              ¬ Utf8Boundary line q) := by
  intro line h
  refine ⟨⟨Nat.zero_le _, h⟩, fun wrap maxScroll p0 acts hb =>
    scroll_run_boundary h wrap maxScroll acts p0 hb, fun maxScroll p hb hm hl => ?_,
    fun p hb hp => ?_⟩
  · constructor
    · unfold action_scroll_right
      rw [if_pos ⟨by simp, hm⟩, if_pos hl]
    · exact utf8_next_boundary h hb hl
  · refine ⟨?_, utf8_prev_boundary h hb hp⟩
    unfold action_scroll_left
    rw [if_pos ⟨by simp, hp⟩]

/-- Witness for claim C9: scrolling right twice and left once over the
line a-eacute-b (bytes 97, 195, 169, 98) lands on a character boundary. -/
theorem claim_C9_scroll_boundary_safety_witness :
    Utf8Boundary [97, 195, 169, 98]
      (scroll_run false 10 [97, 195, 169, 98] 0
        [ScrollAct.right, ScrollAct.right, ScrollAct.left]) :=
  (claim_C9_scroll_boundary_safety [97, 195, 169, 98] sample_line_valid).2.1
    false 10 0 [ScrollAct.right, ScrollAct.right, ScrollAct.left]
    (claim_C9_scroll_boundary_safety [97, 195, 169, 98] sample_line_valid).1

end Fat
